import Mathlib

/-!
Verification of `scripts/manage_puzzles.py` (chrondle repository).

The script maintains a JSON document `puzzles.json` with a `puzzles` mapping
from year-key strings to lists of hint strings, plus derived `meta` fields.
We shallowly embed the script's functions over an explicit JSON value type.
Python dicts are modelled as insertion-ordered association lists with
no duplicate keys; `sys.exit(1)` paths are modelled as `Except.error`;
the backing file is modelled as `Option` of a parsed top-level document
(`none` = file does not exist).
-/

/-- JSON values, as produced by Python's `json.load`.  Objects are
insertion-ordered association lists, mirroring Python dicts. -/
inductive Json where
  | null
  | bool (b : Bool)
  | num (n : Int)
  | str (s : String)
  | arr (elems : List Json)
  | obj (fields : List (String × Json))

/-- The error/exit conditions of the script.  Every constructor corresponds to
a `sys.exit(1)` (or an uncaught exception) in the source. -/
inductive Err where
  | notFound
  | invalidYearKey
  | duplicateYear
  | yearNotFound
  | typeErr
  deriving DecidableEq, Repr

/-- A top-level JSON document: the parsed content of `puzzles.json`. -/
abbrev TopD := List (String × Json)

/-- Python dict lookup `d[k]` / `k in d`: first binding of the key, if any. -/
def dlook : List (String × Json) → String → Option Json
  | [], _ => none
  | p :: rest, k => if p.1 = k then some p.2 else dlook rest k

/-- Python dict assignment `d[k] = v`: replace the existing binding in place,
else append a new binding at the end (dict insertion-order semantics). -/
def dictSet : List (String × Json) → String → Json → List (String × Json)
  | [], k, v => [(k, v)]
  | p :: rest, k, v => if p.1 = k then (k, v) :: rest else p :: dictSet rest k v

/-- Python `d.get(k, default)`. -/
def jgetD (d : List (String × Json)) (k : String) (v : Json) : Json :=
  (dlook d k).getD v

/- ### A model of Python `int(s)` and `str(i)` for decimal integers -/

/-- One decimal digit as a character (`digitChar n` for `n < 10`). -/
def digitChar (n : Nat) : Char :=
  match n with
  | 0 => '0' | 1 => '1' | 2 => '2' | 3 => '3' | 4 => '4'
  | 5 => '5' | 6 => '6' | 7 => '7' | 8 => '8' | _ => '9'

/-- Fuel-driven digit expansion (`fuel ≥ n` suffices); structural recursion
keeps it kernel-reducible. -/
def natToCharsF : Nat → Nat → List Char
  | 0, n => [digitChar n]
  | fuel + 1, n =>
    if n < 10 then [digitChar n]
    else natToCharsF fuel (n / 10) ++ [digitChar (n % 10)]

/-- The decimal digit characters of `n`, most significant first
(the digits of Python `str(n)` for a natural `n`). -/
def natToChars (n : Nat) : List Char := natToCharsF n n

/-- Accumulate one decimal digit: `acc * 10 + value of c`. -/
def accDigit (acc : Nat) (c : Char) : Nat := acc * 10 + (c.toNat - 48)

/-- Continuation of Python `int()` digit parsing after the first digit:
digits, with single underscores permitted between digits. -/
def pyDigitsGo : List Char → Nat → Option Nat
  | [], acc => some acc
  | c :: rest, acc =>
    if c.isDigit then pyDigitsGo rest (accDigit acc c)
    else if c = '_' then
      match rest with
      | [] => none
      | c2 :: rest2 => if c2.isDigit then pyDigitsGo rest2 (accDigit acc c2) else none
    else none

/-- Parse an unsigned decimal numeral (nonempty; underscores only between
digits), as Python `int()` does after sign handling. -/
def pyIntCore : List Char → Option Nat
  | [] => none
  | c :: rest => if c.isDigit then pyDigitsGo rest (c.toNat - 48) else none

/-- Strip leading and trailing whitespace, as Python `int()` does. -/
def stripWs (cs : List Char) : List Char :=
  ((cs.dropWhile Char.isWhitespace).reverse.dropWhile Char.isWhitespace).reverse

/-- Model of Python `int(s)`: optional surrounding whitespace, optional sign,
then a decimal numeral.  `none` models the `ValueError`. -/
def pyInt (s : String) : Option Int :=
  match stripWs s.toList with
  | [] => none
  | c :: rest =>
    if c = '-' then (pyIntCore rest).map (fun n => -(Int.ofNat n))
    else if c = '+' then (pyIntCore rest).map (fun n => Int.ofNat n)
    else (pyIntCore (c :: rest)).map (fun n => Int.ofNat n)

/-- Model of Python `str(n)` for a natural number. -/
def pyStrNat (n : Nat) : String := String.mk (natToChars n)

/-- Model of Python `str(i)` for an integer. -/
def pyStrInt (i : Int) : String :=
  if i < 0 then String.mk ('-' :: natToChars i.natAbs) else String.mk (natToChars i.natAbs)

/-- The integer sort key `int(k)` of a year-key string (the script only sorts
key lists after checking that every key parses, so the default is irrelevant). -/
def keyInt (s : String) : Int := (pyInt s).getD 0

/- ### Sorting by integer value of the year key -/

/-- Ordering of year-key strings by their Python `int` value
(the `key=int` comparator of `sorted`). -/
def strYearLe (a b : String) : Prop := keyInt a ≤ keyInt b

instance : DecidableRel strYearLe := fun a b => Int.decLe (keyInt a) (keyInt b)

instance : IsTotal String strYearLe := ⟨fun a b => Int.le_total (keyInt a) (keyInt b)⟩

instance : IsTrans String strYearLe := ⟨fun _ _ _ => Int.le_trans⟩

/-- The same ordering on `puzzles` entries, comparing keys.  Sorting entries by
key with a stable sort models Python's
`{year: puzzles[year] for year in sorted(puzzles.keys(), key=int)}`
(dict keys are distinct). -/
def yearLe (a b : String × Json) : Prop := strYearLe a.1 b.1

instance : DecidableRel yearLe := fun a b => Int.decLe (keyInt a.1) (keyInt b.1)

instance : IsTotal (String × Json) yearLe := ⟨fun a b => Int.le_total (keyInt a.1) (keyInt b.1)⟩

instance : IsTrans (String × Json) yearLe := ⟨fun _ _ _ => Int.le_trans⟩

/-- `List.insertionSort` is a stable sort, like Python's `sorted` (Timsort);
stability and the multiset of entries determine the output of both for the
total preorder `yearLe`, so this models the script's sort exactly. -/
def sortEntries (pz : List (String × Json)) : List (String × Json) :=
  List.insertionSort yearLe pz

/-- The guard modelling the `try: sorted(..., key=int) except ValueError`
of `write_puzzles`: `int()` succeeds on every key. -/
def keysParse (pz : List (String × Json)) : Bool :=
  pz.all (fun p => (pyInt p.1).isSome)

/- ### The script's functions -/

/-- `read_full_json()`: the whole document, or `{"puzzles": {}, "meta": {}}`
when the file does not exist. -/
def read_full_json (st : Option TopD) : TopD :=
  match st with
  | none => [("puzzles", Json.obj []), ("meta", Json.obj [])]
  | some d => d

/-- `read_puzzles()`: exits with an error when the file does not exist,
else returns `data.get("puzzles", {})`. -/
def read_puzzles (st : Option TopD) : Except Err Json :=
  match st with
  | none => Except.error Err.notFound
  | some d => Except.ok (jgetD d "puzzles" (Json.obj []))

/-- The recomputed `meta` fields of `write_puzzles`: sets
`meta["total_puzzles"]` and `meta["date_range"]` on the existing
`meta` fields `m`, given the sorted entries. -/
def mkMeta (m : List (String × Json)) (sorted_pz : List (String × Json)) :
    List (String × Json) :=
  dictSet (dictSet m "total_puzzles" (Json.num (sorted_pz.length : Int)))
    "date_range"
    (Json.str
      (if sorted_pz.isEmpty then ""
       else ((sorted_pz.head?.map Prod.fst).getD "") ++ "-"
             ++ ((sorted_pz.getLast?.map Prod.fst).getD "")))

/-- The document just before the `meta` update inside `write_puzzles`:
re-read the file (or default), overlay the sorted `puzzles`, and insert an
empty `meta` object if the key is absent. -/
def preDoc (st : Option TopD) (sorted_pz : List (String × Json)) : TopD :=
  if (dlook (dictSet (read_full_json st) "puzzles" (Json.obj sorted_pz)) "meta").isSome then
    dictSet (read_full_json st) "puzzles" (Json.obj sorted_pz)
  else
    dictSet (dictSet (read_full_json st) "puzzles" (Json.obj sorted_pz)) "meta" (Json.obj [])

/-- The body of `write_puzzles` once `data.get("puzzles", {})` has been
matched to an object with entries `pz`. -/
def write_puzzlesAux (pz : List (String × Json)) (st : Option TopD) : Except Err TopD :=
  if keysParse pz then
    match dlook (preDoc st (sortEntries pz)) "meta" with
    | some (Json.obj m) =>
      Except.ok (dictSet (preDoc st (sortEntries pz)) "meta"
        (Json.obj (mkMeta m (sortEntries pz))))
    | _ => Except.error Err.typeErr
  else Except.error Err.invalidYearKey

/-- `write_puzzles(data)`: sort the `puzzles` entries by integer key (exiting
with an error if some key does not parse), re-read the on-disk document,
overlay `puzzles`, recompute `meta`, and return the document to be written.
`Err.typeErr` models the uncaught Python exception on an ill-typed document
(`puzzles` or `meta` not an object). -/
def write_puzzles (data : TopD) (st : Option TopD) : Except Err TopD :=
  match jgetD data "puzzles" (Json.obj []) with
  | Json.obj pz => write_puzzlesAux pz st
  | _ => Except.error Err.typeErr

/-- `add_puzzle(year, hints)`. -/
def add_puzzle (year : Int) (hints : List String) (st : Option TopD) : Except Err TopD :=
  match jgetD (read_full_json st) "puzzles" (Json.obj []) with
  | Json.obj pz =>
    if (dlook pz (pyStrInt year)).isSome then Except.error Err.duplicateYear
    else
      write_puzzles
        (dictSet (read_full_json st) "puzzles"
          (Json.obj (dictSet pz (pyStrInt year) (Json.arr (hints.map Json.str))))) st
  | _ => Except.error Err.typeErr

/-- `update_puzzle(year, hints)`. -/
def update_puzzle (year : Int) (hints : List String) (st : Option TopD) : Except Err TopD :=
  match jgetD (read_full_json st) "puzzles" (Json.obj []) with
  | Json.obj pz =>
    if (dlook pz (pyStrInt year)).isSome then
      write_puzzles
        (dictSet (read_full_json st) "puzzles"
          (Json.obj (dictSet pz (pyStrInt year) (Json.arr (hints.map Json.str))))) st
    else Except.error Err.yearNotFound
  | _ => Except.error Err.typeErr

/-- Extract the hint strings of one year (the script's hints are strings;
a non-string element would make Python print its repr, not modelled). -/
def getStrs : List Json → Option (List String)
  | [] => some []
  | Json.str s :: rest => (getStrs rest).map (fun tl => s :: tl)
  | _ :: _ => none

/-- The printed lines for one year's hint values: the header
`Hints for year {year}:` and the 1-indexed numbered hints
(`enumerate(hints, 1)` in the source). -/
def renderHints (year : Int) (items : List Json) : Except Err (List String) :=
  match getStrs items with
  | some strs =>
    Except.ok (("Hints for year " ++ pyStrInt year ++ ":") ::
      (strs.enum.map (fun p => "  " ++ pyStrNat (p.1 + 1) ++ ". " ++ p.2)))
  | none => Except.error Err.typeErr

/-- The body of `show_puzzle` after the `puzzles` object has been loaded:
`if year_str in puzzles` then render, else the error exit. -/
def showHints (year : Int) (pz : List (String × Json)) : Except Err (List String) :=
  match dlook pz (pyStrInt year) with
  | some (Json.arr items) => renderHints year items
  | some _ => Except.error Err.typeErr
  | none => Except.error Err.yearNotFound

/-- `show_puzzle(year)`: the printed lines, or the error exit. -/
def show_puzzle (year : Int) (st : Option TopD) : Except Err (List String) :=
  match read_puzzles st with
  | Except.error e => Except.error e
  | Except.ok (Json.obj pz) => showHints year pz
  | Except.ok _ => Except.error Err.typeErr

/-- Left-justified padding to width `w`, Python `f"{s: <8}"`. -/
def pad (w : Nat) (s : String) : String :=
  s ++ String.mk (List.replicate (w - s.length) ' ')

/-- Split a list into rows of `n` (Python `range(0, len, n)` slicing). -/
def chunks (n : Nat) : List String → List (List String)
  | [] => []
  | x :: rest => (x :: rest.take (n - 1)) :: chunks n (rest.drop (n - 1))
termination_by l => l.length
decreasing_by simp only [List.length_drop, List.length_cons]; omega

/-- `list_puzzles()`: the printed lines, or the error exit (an unparseable
key raises an uncaught `ValueError` inside `sorted`, modelled as an error). -/
def list_puzzles (st : Option TopD) : Except Err (List String) :=
  match read_puzzles st with
  | Except.error e => Except.error e
  | Except.ok (Json.obj pz) =>
    if keysParse pz then
      let sorted_years := (sortEntries pz).map Prod.fst
      Except.ok ("The following years have hints defined in puzzles.json:" ::
        (chunks 10 sorted_years).map (fun row => String.join (row.map (pad 8))))
    else Except.error Err.invalidYearKey
  | Except.ok _ => Except.error Err.typeErr

/-- `count_puzzles()`: the reported count, or the error exit. -/
def count_puzzles (st : Option TopD) : Except Err Nat :=
  match read_puzzles st with
  | Except.error e => Except.error e
  | Except.ok (Json.obj pz) => Except.ok pz.length
  | Except.ok _ => Except.error Err.typeErr

/- ### File-state semantics of one command invocation

On success the file's content becomes the written document; on `sys.exit(1)`
reached before the `open(..., 'w')`, the file is left exactly as it was. -/

/-- Running `write_puzzles` against the file state. -/
def runWrite (data : TopD) (st : Option TopD) : Option TopD × Option Err :=
  match write_puzzles data st with
  | Except.ok d => (some d, none)
  | Except.error e => (st, some e)

/-- Running the `add` command against the file state. -/
def runAdd (year : Int) (hints : List String) (st : Option TopD) :
    Option TopD × Option Err :=
  match add_puzzle year hints st with
  | Except.ok d => (some d, none)
  | Except.error e => (st, some e)

/-- Running the `update` command against the file state. -/
def runUpdate (year : Int) (hints : List String) (st : Option TopD) :
    Option TopD × Option Err :=
  match update_puzzle year hints st with
  | Except.ok d => (some d, none)
  | Except.error e => (st, some e)

/- ### Accessors used in the statements -/

/-- The `puzzles` value of a document (`data.get("puzzles", {})`). -/
def puzzlesOf (d : TopD) : Json := jgetD d "puzzles" (Json.obj [])

/-- One field of the `meta` object of a document, if `meta` is an object. -/
def metaGet (d : TopD) (k : String) : Option Json :=
  match dlook d "meta" with
  | some (Json.obj m) => dlook m k
  | _ => none

/-- The `meta` value of the document is absent or an object (so the script's
`file_content['meta'][...] = ...` assignments do not raise). -/
def metaOk (d : TopD) : Bool :=
  match dlook d "meta" with
  | none => true
  | some (Json.obj _) => true
  | some _ => false

/- ### Lemmas: decimal printing and parsing round-trip -/

/-- The fuel argument of `natToCharsF` is irrelevant once sufficient. -/
theorem natToCharsF_irrel (n : Nat) : ∀ fuel1 fuel2 : Nat, (n < 10 ∨ n ≤ fuel1) →
    (n < 10 ∨ n ≤ fuel2) → natToCharsF fuel1 n = natToCharsF fuel2 n := by
  induction n using Nat.strong_induction_on with
  | _ n ih =>
    intro fuel1 fuel2 h1 h2
    by_cases hn : n < 10
    · cases fuel1 <;> cases fuel2 <;> simp [natToCharsF, hn]
    · have hf1 : n ≤ fuel1 := h1.resolve_left hn
      have hf2 : n ≤ fuel2 := h2.resolve_left hn
      obtain ⟨k1, rfl⟩ : ∃ k, fuel1 = k + 1 := ⟨fuel1 - 1, by omega⟩
      obtain ⟨k2, rfl⟩ : ∃ k, fuel2 = k + 1 := ⟨fuel2 - 1, by omega⟩
      simp only [natToCharsF, if_neg hn]
      congr 1
      exact ih (n / 10) (by omega) k1 k2 (Or.inr (by omega)) (Or.inr (by omega))

/-- The defining recurrence of `natToChars`. -/
theorem natToChars_eq (n : Nat) :
    natToChars n =
      if n < 10 then [digitChar n] else natToChars (n / 10) ++ [digitChar (n % 10)] := by
  cases n with
  | zero => rfl
  | succ m =>
    show natToCharsF (m + 1) (m + 1) = _
    by_cases hn : m + 1 < 10
    · simp [natToCharsF, hn]
    · simp only [natToCharsF, if_neg hn]
      congr 1
      exact natToCharsF_irrel ((m + 1) / 10) m ((m + 1) / 10)
        (Or.inr (by omega)) (Or.inr le_rfl)

/-- Every digit character is one of the ten decimal digits. -/
theorem digitChar_mem (n : Nat) :
    digitChar n ∈ ['0', '1', '2', '3', '4', '5', '6', '7', '8', '9'] := by
  rcases n with _|_|_|_|_|_|_|_|_|n <;>
    first
      | decide
      | exact (by decide : ('9' : Char) ∈ ['0', '1', '2', '3', '4', '5', '6', '7', '8', '9'])

/-- The arithmetic value of a digit character. -/
theorem digitChar_val {n : Nat} (h : n < 10) : (digitChar n).toNat - 48 = n := by
  interval_cases n <;> decide

theorem natToChars_ne_nil (n : Nat) : natToChars n ≠ [] := by
  rw [natToChars_eq]
  split <;> simp

/-- Every character printed for a natural number is a decimal digit. -/
theorem natToChars_mem_digits (n : Nat) :
    ∀ c ∈ natToChars n, c ∈ ['0', '1', '2', '3', '4', '5', '6', '7', '8', '9'] := by
  induction n using Nat.strong_induction_on with
  | _ n ih =>
    rw [natToChars_eq]
    split
    · intro c hc
      simp only [List.mem_singleton] at hc
      subst hc
      exact digitChar_mem n
    · intro c hc
      rcases List.mem_append.mp hc with hc | hc
      · exact ih (n / 10) (by omega) c hc
      · simp only [List.mem_singleton] at hc
        subst hc
        exact digitChar_mem _

/-- Basic facts about decimal digit characters. -/
theorem digit_char_facts {c : Char}
    (h : c ∈ ['0', '1', '2', '3', '4', '5', '6', '7', '8', '9']) :
    c.isDigit = true ∧ c.isWhitespace = false ∧ c ≠ '-' ∧ c ≠ '+' := by
  fin_cases h <;> exact ⟨by decide, by decide, by decide, by decide⟩

/-- One digit step of `pyDigitsGo`. -/
theorem pyDigitsGo_cons_digit (c : Char) (rest : List Char) (acc : Nat)
    (hc : c.isDigit = true) :
    pyDigitsGo (c :: rest) acc = pyDigitsGo rest (accDigit acc c) := by
  cases rest with
  | nil => simp [pyDigitsGo, hc]
  | cons c2 r2 => simp [pyDigitsGo, hc]

/-- `pyDigitsGo` on a plain digit string accumulates the digits. -/
theorem pyDigitsGo_digits : ∀ (ds : List Char) (acc : Nat),
    (∀ c ∈ ds, c.isDigit = true) → pyDigitsGo ds acc = some (ds.foldl accDigit acc) := by
  intro ds
  induction ds with
  | nil => intro acc _; rfl
  | cons c rest ih =>
    intro acc h
    have hc : c.isDigit = true := h c (by simp)
    rw [pyDigitsGo_cons_digit c rest acc hc, List.foldl_cons]
    exact ih _ (fun x hx => h x (by simp [hx]))

/-- Folding the digit characters of `n` onto `acc` computes `n`. -/
theorem foldl_accDigit_natToChars (n : Nat) : ∀ acc : Nat,
    (natToChars n).foldl accDigit acc = acc * 10 ^ (natToChars n).length + n := by
  induction n using Nat.strong_induction_on with
  | _ n ih =>
    intro acc
    rw [natToChars_eq]
    by_cases hn : n < 10
    · rw [if_pos hn]
      simp [accDigit, digitChar_val hn]
    · rw [if_neg hn]
      rw [List.foldl_append, ih (n / 10) (by omega) acc]
      simp only [List.foldl_cons, List.foldl_nil, List.length_append, List.length_cons,
        List.length_nil, accDigit]
      rw [digitChar_val (show n % 10 < 10 by omega)]
      have hdm : 10 * (n / 10) + n % 10 = n := Nat.div_add_mod n 10
      generalize (natToChars (n / 10)).length = L
      calc (acc * 10 ^ L + n / 10) * 10 + n % 10
          = acc * (10 ^ L * 10) + (10 * (n / 10) + n % 10) := by ring
        _ = acc * 10 ^ (L + (0 + 1)) + n := by rw [hdm, pow_succ]

/-- Parsing the printed digits of `n` recovers `n`. -/
theorem pyIntCore_natToChars (n : Nat) : pyIntCore (natToChars n) = some n := by
  obtain ⟨c, rest, hcr⟩ : ∃ c rest, natToChars n = c :: rest := by
    cases h : natToChars n with
    | nil => exact absurd h (natToChars_ne_nil n)
    | cons c rest => exact ⟨c, rest, rfl⟩
  have hdig : ∀ x ∈ natToChars n, x.isDigit = true := fun x hx =>
    (digit_char_facts (natToChars_mem_digits n x hx)).1
  have hc : c.isDigit = true := hdig c (by rw [hcr]; simp)
  rw [hcr]
  simp only [pyIntCore, hc, if_true]
  rw [pyDigitsGo_digits rest (c.toNat - 48) (fun x hx => hdig x (by rw [hcr]; simp [hx]))]
  congr 1
  have h0 : (c :: rest).foldl accDigit 0 = 0 * 10 ^ (c :: rest).length + n := by
    rw [← hcr]; exact foldl_accDigit_natToChars n 0
  simp only [List.foldl_cons] at h0
  have hstep : accDigit 0 c = c.toNat - 48 := by simp [accDigit]
  rw [hstep] at h0
  rw [h0]
  ring

theorem dropWhile_ws_eq_self {l : List Char} (h : ∀ c ∈ l, c.isWhitespace = false) :
    l.dropWhile Char.isWhitespace = l := by
  cases l with
  | nil => rfl
  | cons c rest =>
    have hc := h c (by simp)
    simp [List.dropWhile_cons, hc]

theorem stripWs_eq_self {l : List Char} (h : ∀ c ∈ l, c.isWhitespace = false) :
    stripWs l = l := by
  unfold stripWs
  rw [dropWhile_ws_eq_self h,
    dropWhile_ws_eq_self (fun c hc => h c (List.mem_reverse.mp hc)),
    List.reverse_reverse]

/-- Unfolding `pyInt` on a whitespace-free character list. -/
theorem pyInt_mk_cons (c : Char) (rest : List Char)
    (hws : stripWs (c :: rest) = c :: rest) :
    pyInt (String.mk (c :: rest)) =
      if c = '-' then (pyIntCore rest).map (fun n => -(Int.ofNat n))
      else if c = '+' then (pyIntCore rest).map (fun n => Int.ofNat n)
      else (pyIntCore (c :: rest)).map (fun n => Int.ofNat n) := by
  unfold pyInt
  rw [show (String.mk (c :: rest)).toList = c :: rest from rfl, hws]

/-- Round-trip: Python `int(str(i)) == i`. -/
theorem pyInt_pyStrInt (i : Int) : pyInt (pyStrInt i) = some i := by
  have hmem := natToChars_mem_digits i.natAbs
  by_cases hi : i < 0
  · rw [pyStrInt, if_pos hi]
    rw [pyInt_mk_cons '-' (natToChars i.natAbs)
      (stripWs_eq_self (by
        intro c hc
        rcases List.mem_cons.mp hc with rfl | hc2
        · decide
        · exact (digit_char_facts (hmem c hc2)).2.1))]
    rw [if_pos rfl, pyIntCore_natToChars]
    simp only [Option.map_some']
    congr 1
    simp only [Int.ofNat_eq_natCast]
    omega
  · rw [pyStrInt, if_neg hi]
    obtain ⟨c, rest, hcr⟩ : ∃ c rest, natToChars i.natAbs = c :: rest := by
      cases h : natToChars i.natAbs with
      | nil => exact absurd h (natToChars_ne_nil _)
      | cons c rest => exact ⟨c, rest, rfl⟩
    have hfacts := digit_char_facts (hmem c (by rw [hcr]; simp))
    rw [hcr]
    rw [pyInt_mk_cons c rest
      (stripWs_eq_self (by
        intro x hx
        exact (digit_char_facts (hmem x (by rw [hcr]; exact hx))).2.1))]
    rw [if_neg hfacts.2.2.1, if_neg hfacts.2.2.2, ← hcr, pyIntCore_natToChars]
    simp only [Option.map_some']
    congr 1
    simp only [Int.ofNat_eq_natCast]
    omega

/- ### Lemmas: association-list dictionaries -/

theorem dlook_dictSet_self (l : List (String × Json)) (k : String) (v : Json) :
    dlook (dictSet l k v) k = some v := by
  induction l with
  | nil => simp [dictSet, dlook]
  | cons p rest ih =>
    by_cases h : p.1 = k
    · simp [dictSet, h, dlook]
    · simp [dictSet, h, dlook, ih]

theorem dlook_dictSet_ne (l : List (String × Json)) (k k2 : String) (v : Json)
    (h : k2 ≠ k) : dlook (dictSet l k v) k2 = dlook l k2 := by
  induction l with
  | nil => simp [dictSet, dlook, Ne.symm h]
  | cons p rest ih =>
    by_cases hp : p.1 = k
    · simp [dictSet, hp, dlook, Ne.symm h]
    · by_cases hq : p.1 = k2 <;> simp [dictSet, dlook, hp, hq, ih, h]

theorem dlook_eq_none_iff (l : List (String × Json)) (k : String) :
    dlook l k = none ↔ k ∉ l.map Prod.fst := by
  induction l with
  | nil => simp [dlook]
  | cons p rest ih =>
    by_cases hp : p.1 = k
    · simp [dlook, hp]
    · have hstep : dlook (p :: rest) k = dlook rest k := by simp [dlook, hp]
      rw [hstep, ih, List.map_cons, List.mem_cons]
      constructor
      · rintro h1 (he | hm)
        · exact hp he.symm
        · exact h1 hm
      · exact fun h1 hm => h1 (Or.inr hm)

/-- Setting an existing key keeps the key sequence unchanged. -/
theorem dictSet_keys_of_mem (l : List (String × Json)) (k : String) (v : Json)
    (h : dlook l k ≠ none) : (dictSet l k v).map Prod.fst = l.map Prod.fst := by
  induction l with
  | nil => exact absurd rfl h
  | cons p rest ih =>
    by_cases hp : p.1 = k
    · simp [dictSet, hp]
    · have h2 : dlook rest k ≠ none := by
        simpa [dlook, hp] using h
      simp [dictSet, hp, ih h2]

/-- Setting an absent key appends the binding. -/
theorem dictSet_of_absent (l : List (String × Json)) (k : String) (v : Json)
    (h : dlook l k = none) : dictSet l k v = l ++ [(k, v)] := by
  induction l with
  | nil => rfl
  | cons p rest ih =>
    have hp : p.1 ≠ k := by
      intro e
      simp [dlook, e] at h
    have h2 : dlook rest k = none := by simpa [dlook, hp] using h
    simp [dictSet, hp, ih h2]

/-- Lookup is invariant under permutation when the keys are distinct
(assoc lists modelling dicts). -/
theorem dlook_perm : ∀ {l1 l2 : List (String × Json)}, l1.Perm l2 →
    (l1.map Prod.fst).Nodup → ∀ k, dlook l1 k = dlook l2 k := by
  intro l1 l2 h
  induction h with
  | nil => intro _ _; rfl
  | cons x h ih =>
    intro nd k
    by_cases hx : x.1 = k <;> simp [dlook, hx]
    exact ih (by simpa [List.nodup_cons] using nd.of_cons) k
  | swap x y t =>
    intro nd k
    have hxy : y.1 ≠ x.1 := by
      rw [List.map_cons, List.nodup_cons] at nd
      exact fun e => nd.1 (by rw [e, List.map_cons]; exact List.mem_cons_self _ _)
    by_cases h1 : y.1 = k <;> by_cases h2 : x.1 = k <;>
      simp [dlook, h1, h2]
    exact absurd (h1.trans h2.symm) hxy
  | trans h1 h2 ih1 ih2 =>
    intro nd k
    have nd2 := ((h1.map Prod.fst).nodup_iff).mp nd
    exact (ih1 nd k).trans (ih2 nd2 k)

/- ### Lemmas: the stable sort of the entry list -/

theorem sortEntries_perm (pz : List (String × Json)) : (sortEntries pz).Perm pz :=
  List.perm_insertionSort yearLe pz

theorem sortEntries_sorted (pz : List (String × Json)) :
    List.Sorted yearLe (sortEntries pz) :=
  List.sorted_insertionSort yearLe pz

theorem sortEntries_keys_perm (pz : List (String × Json)) :
    ((sortEntries pz).map Prod.fst).Perm (pz.map Prod.fst) :=
  (sortEntries_perm pz).map Prod.fst

theorem sortEntries_nodup {pz : List (String × Json)}
    (nd : (pz.map Prod.fst).Nodup) : ((sortEntries pz).map Prod.fst).Nodup :=
  ((sortEntries_keys_perm pz).nodup_iff).mpr nd

theorem sortEntries_length (pz : List (String × Json)) :
    (sortEntries pz).length = pz.length :=
  (sortEntries_perm pz).length_eq

theorem dlook_sortEntries {pz : List (String × Json)}
    (nd : (pz.map Prod.fst).Nodup) (k : String) :
    dlook (sortEntries pz) k = dlook pz k :=
  dlook_perm (sortEntries_perm pz) (sortEntries_nodup nd) k

theorem keysParse_sortEntries {pz : List (String × Json)}
    (hall : keysParse pz = true) : keysParse (sortEntries pz) = true := by
  rw [keysParse, List.all_eq_true] at *
  intro x hx
  exact hall x ((sortEntries_perm pz).subset hx)

/-- An already-sorted entry list is fixed by the sort (the sort, being
stable, is idempotent). -/
theorem sortEntries_idem (pz : List (String × Json)) :
    sortEntries (sortEntries pz) = sortEntries pz :=
  List.Sorted.insertionSort_eq (sortEntries_sorted pz)

/-- The head of a sorted non-empty entry list is a minimum. -/
theorem sorted_head_min {l : List (String × Json)}
    (hs : List.Sorted yearLe l) (h : l ≠ []) :
    ∀ x ∈ l, yearLe (l.head h) x := by
  cases l with
  | nil => exact absurd rfl h
  | cons a t =>
    intro x hx
    rcases List.mem_cons.mp hx with rfl | hx2
    · exact le_refl (keyInt x.1)
    · exact (List.sorted_cons.mp hs).1 x hx2

/-- The last element of a sorted non-empty entry list is a maximum. -/
theorem sorted_getLast_max : ∀ {l : List (String × Json)},
    List.Sorted yearLe l → (h : l ≠ []) → ∀ x ∈ l, yearLe x (l.getLast h) := by
  intro l
  induction l with
  | nil => intro _ h; exact absurd rfl h
  | cons a t ih =>
    intro hs h x hx
    cases t with
    | nil =>
      rcases List.mem_cons.mp hx with rfl | hx2
      · exact le_refl (keyInt x.1)
      · simp at hx2
    | cons b t2 =>
      rw [List.getLast_cons (by simp)]
      rcases List.mem_cons.mp hx with rfl | hx2
      · exact (List.sorted_cons.mp hs).1 _ (List.getLast_mem (by simp))
      · exact ih (List.sorted_cons.mp hs).2 (by simp) x hx2

/- ### Lemmas: characterizing `write_puzzles` -/

theorem write_puzzles_eq_aux {data : TopD} {st : Option TopD} {pz : List (String × Json)}
    (hpz : jgetD data "puzzles" (Json.obj []) = Json.obj pz) :
    write_puzzles data st = write_puzzlesAux pz st := by
  unfold write_puzzles
  rw [hpz]

theorem write_puzzlesAux_invalid {pz : List (String × Json)} {st : Option TopD}
    (hall : keysParse pz = false) :
    write_puzzlesAux pz st = Except.error Err.invalidYearKey := by
  unfold write_puzzlesAux
  rw [if_neg (by simp [hall])]

theorem preDoc_of_meta_some {st : Option TopD} {s : List (String × Json)} {v : Json}
    (h : dlook (read_full_json st) "meta" = some v) :
    preDoc st s = dictSet (read_full_json st) "puzzles" (Json.obj s) := by
  unfold preDoc
  rw [dlook_dictSet_ne _ _ _ _ (by decide), h]
  simp

theorem preDoc_of_meta_none {st : Option TopD} {s : List (String × Json)}
    (h : dlook (read_full_json st) "meta" = none) :
    preDoc st s =
      dictSet (dictSet (read_full_json st) "puzzles" (Json.obj s)) "meta" (Json.obj []) := by
  unfold preDoc
  rw [dlook_dictSet_ne _ _ _ _ (by decide), h]
  simp

theorem dlook_preDoc_meta_some {st : Option TopD} {s : List (String × Json)} {v : Json}
    (h : dlook (read_full_json st) "meta" = some v) :
    dlook (preDoc st s) "meta" = some v := by
  rw [preDoc_of_meta_some h, dlook_dictSet_ne _ _ _ _ (by decide)]
  exact h

theorem dlook_preDoc_meta_none {st : Option TopD} {s : List (String × Json)}
    (h : dlook (read_full_json st) "meta" = none) :
    dlook (preDoc st s) "meta" = some (Json.obj []) := by
  rw [preDoc_of_meta_none h]
  exact dlook_dictSet_self _ _ _

theorem dlook_preDoc_puzzles (st : Option TopD) (s : List (String × Json)) :
    dlook (preDoc st s) "puzzles" = some (Json.obj s) := by
  unfold preDoc
  split
  · exact dlook_dictSet_self _ _ _
  · rw [dlook_dictSet_ne _ _ _ _ (by decide)]
    exact dlook_dictSet_self _ _ _

theorem dlook_preDoc_other {st : Option TopD} {s : List (String × Json)} {k : String}
    (h1 : k ≠ "puzzles") (h2 : k ≠ "meta") :
    dlook (preDoc st s) k = dlook (read_full_json st) k := by
  unfold preDoc
  split
  · exact dlook_dictSet_ne _ _ _ _ h1
  · rw [dlook_dictSet_ne _ _ _ _ h2]
    exact dlook_dictSet_ne _ _ _ _ h1

theorem write_puzzlesAux_ok {pz : List (String × Json)} {st : Option TopD}
    {m : List (String × Json)}
    (hall : keysParse pz = true)
    (hm : dlook (preDoc st (sortEntries pz)) "meta" = some (Json.obj m)) :
    write_puzzlesAux pz st =
      Except.ok (dictSet (preDoc st (sortEntries pz)) "meta"
        (Json.obj (mkMeta m (sortEntries pz)))) := by
  unfold write_puzzlesAux
  rw [if_pos hall, hm]

theorem metaOk_cases {d : TopD} (h : metaOk d = true) :
    dlook d "meta" = none ∨ ∃ m, dlook d "meta" = some (Json.obj m) := by
  unfold metaOk at h
  rcases hd : dlook d "meta" with _ | v
  · exact Or.inl rfl
  · rw [hd] at h
    cases v with
    | obj m => exact Or.inr ⟨m, rfl⟩
    | null => simp at h
    | bool b => simp at h
    | num n => simp at h
    | str s => simp at h
    | arr xs => simp at h

/-- Under the usual well-formedness of the on-disk document, `write_puzzles`
succeeds and its output is fully characterized. -/
theorem write_puzzlesAux_ok_of_metaOk {pz : List (String × Json)} {st : Option TopD}
    (hall : keysParse pz = true) (hmeta : metaOk (read_full_json st) = true) :
    ∃ m, dlook (preDoc st (sortEntries pz)) "meta" = some (Json.obj m) ∧
      write_puzzlesAux pz st =
        Except.ok (dictSet (preDoc st (sortEntries pz)) "meta"
          (Json.obj (mkMeta m (sortEntries pz)))) := by
  rcases metaOk_cases hmeta with hn | ⟨m, hs⟩
  · exact ⟨[], dlook_preDoc_meta_none hn, write_puzzlesAux_ok hall (dlook_preDoc_meta_none hn)⟩
  · exact ⟨m, dlook_preDoc_meta_some hs, write_puzzlesAux_ok hall (dlook_preDoc_meta_some hs)⟩

theorem dlook_mkMeta_total (m s : List (String × Json)) :
    dlook (mkMeta m s) "total_puzzles" = some (Json.num (s.length : Int)) := by
  unfold mkMeta
  rw [dlook_dictSet_ne _ _ _ _ (by decide)]
  exact dlook_dictSet_self _ _ _

theorem dlook_mkMeta_dr (m s : List (String × Json)) :
    dlook (mkMeta m s) "date_range" =
      some (Json.str
        (if s.isEmpty then ""
         else ((s.head?.map Prod.fst).getD "") ++ "-" ++ ((s.getLast?.map Prod.fst).getD ""))) := by
  unfold mkMeta
  exact dlook_dictSet_self _ _ _

theorem dlook_mkMeta_other {m s : List (String × Json)} {k : String}
    (h1 : k ≠ "total_puzzles") (h2 : k ≠ "date_range") :
    dlook (mkMeta m s) k = dlook m k := by
  unfold mkMeta
  rw [dlook_dictSet_ne _ _ _ _ h2]
  exact dlook_dictSet_ne _ _ _ _ h1

/-- The only error exits of `write_puzzles` are `invalidYearKey` and the
ill-typed-document exception. -/
theorem write_puzzles_error_sub {data : TopD} {st : Option TopD} {e : Err}
    (h : write_puzzles data st = Except.error e) :
    e = Err.invalidYearKey ∨ e = Err.typeErr := by
  unfold write_puzzles at h
  split at h
  · unfold write_puzzlesAux at h
    split at h
    · split at h
      · exact absurd h (by simp)
      · injection h with h2
        exact Or.inr h2.symm
    · injection h with h2
      exact Or.inl h2.symm
  · injection h with h2
    exact Or.inr h2.symm

theorem jgetD_dictSet_self (l : List (String × Json)) (k : String) (v d : Json) :
    jgetD (dictSet l k v) k d = v := by
  unfold jgetD
  rw [dlook_dictSet_self]
  rfl

theorem add_puzzle_eq {year : Int} {hints : List String} {st : Option TopD}
    {pz : List (String × Json)}
    (hpz : jgetD (read_full_json st) "puzzles" (Json.obj []) = Json.obj pz) :
    add_puzzle year hints st =
      if (dlook pz (pyStrInt year)).isSome then Except.error Err.duplicateYear
      else
        write_puzzles
          (dictSet (read_full_json st) "puzzles"
            (Json.obj (dictSet pz (pyStrInt year) (Json.arr (hints.map Json.str))))) st := by
  unfold add_puzzle
  rw [hpz]

theorem update_puzzle_eq {year : Int} {hints : List String} {st : Option TopD}
    {pz : List (String × Json)}
    (hpz : jgetD (read_full_json st) "puzzles" (Json.obj []) = Json.obj pz) :
    update_puzzle year hints st =
      if (dlook pz (pyStrInt year)).isSome then
        write_puzzles
          (dictSet (read_full_json st) "puzzles"
            (Json.obj (dictSet pz (pyStrInt year) (Json.arr (hints.map Json.str))))) st
      else Except.error Err.yearNotFound := by
  unfold update_puzzle
  rw [hpz]

/-- A successful `add` on a well-formed store: the year is new, every existing
key parses, `meta` is well-typed.  The output's `puzzles` is the sorted
extension of the store's entries by the new binding. -/
theorem add_ok {year : Int} {hints : List String} {st : Option TopD}
    {pz : List (String × Json)}
    (hpz : jgetD (read_full_json st) "puzzles" (Json.obj []) = Json.obj pz)
    (habs : dlook pz (pyStrInt year) = none)
    (hall : keysParse pz = true)
    (hmeta : metaOk (read_full_json st) = true) :
    ∃ out, add_puzzle year hints st = Except.ok out ∧
      dlook out "puzzles" =
        some (Json.obj (sortEntries
          (dictSet pz (pyStrInt year) (Json.arr (hints.map Json.str))))) := by
  have hall2 : keysParse (dictSet pz (pyStrInt year) (Json.arr (hints.map Json.str))) = true := by
    rw [dictSet_of_absent _ _ _ habs]
    simp only [keysParse, List.all_append] at *
    rw [hall]
    simp [pyInt_pyStrInt]
  obtain ⟨m, hm, heq⟩ :=
    @write_puzzlesAux_ok_of_metaOk
      (dictSet pz (pyStrInt year) (Json.arr (hints.map Json.str))) st hall2 hmeta
  refine ⟨dictSet
      (preDoc st (sortEntries (dictSet pz (pyStrInt year) (Json.arr (hints.map Json.str)))))
      "meta"
      (Json.obj (mkMeta m
        (sortEntries (dictSet pz (pyStrInt year) (Json.arr (hints.map Json.str)))))), ?_, ?_⟩
  · rw [add_puzzle_eq hpz, if_neg (by rw [habs]; simp)]
    rw [write_puzzles_eq_aux (jgetD_dictSet_self _ _ _ _)]
    exact heq
  · rw [dlook_dictSet_ne _ _ _ _ (by decide)]
    exact dlook_preDoc_puzzles st _

/- ### Claim C1 -/

/-- Claim C1, counterexample: with the backing store file missing, the `add`
command does **not** fail with `NotFound` — it succeeds and performs a write
(the claim asserts every mutating command fails with `NotFound` there). -/
theorem C1_counterexample :
    (runAdd 2001 ["a"] none).snd ≠ some Err.notFound ∧
    (runAdd 2001 ["a"] none).fst.isSome = true := by
  constructor
  · decide
  · decide

/-- Claim C1 (amended): when the backing store file does not exist, the read
commands (`list`, `show`, `count`) fail with `NotFound`; the mutating commands
instead load via the defaulting read path, so `add` succeeds against an empty
document (creating the store) and `update` fails with `YearNotFound`. -/
theorem C1_missing_file (year : Int) (hints : List String) :
    list_puzzles none = Except.error Err.notFound ∧
    show_puzzle year none = Except.error Err.notFound ∧
    count_puzzles none = Except.error Err.notFound ∧
    (∃ out, add_puzzle year hints none = Except.ok out) ∧
    update_puzzle year hints none = Except.error Err.yearNotFound := by
  refine ⟨rfl, rfl, rfl, ?_, ?_⟩
  · obtain ⟨out, ho, _⟩ := @add_ok year hints none [] rfl rfl rfl rfl
    exact ⟨out, ho⟩
  · rw [@update_puzzle_eq year hints none [] rfl]
    simp [dlook]

/- ### Claim C2 -/

/-- Claim C2: if any key of the `puzzles` mapping passed to the writer does
not parse as an integer, the writer fails with `InvalidYearKey` and no write
occurs — the file state is left exactly as it was. -/
theorem C2_invalid_key_no_write {data : TopD} {st : Option TopD}
    {pz : List (String × Json)}
    (hpz : jgetD data "puzzles" (Json.obj []) = Json.obj pz)
    (hbad : ∃ p ∈ pz, pyInt p.1 = none) :
    write_puzzles data st = Except.error Err.invalidYearKey ∧
    runWrite data st = (st, some Err.invalidYearKey) := by
  have hne : ¬ keysParse pz = true := by
    rw [keysParse, List.all_eq_true]
    intro hforall
    rcases hbad with ⟨p, hp, hnone⟩
    have := hforall p hp
    rw [hnone] at this
    simp at this
  have hall : keysParse pz = false := by
    cases hkp : keysParse pz
    · rfl
    · exact absurd hkp hne
  have h1 : write_puzzles data st = Except.error Err.invalidYearKey := by
    rw [write_puzzles_eq_aux hpz, write_puzzlesAux_invalid hall]
  refine ⟨h1, ?_⟩
  unfold runWrite
  rw [h1]

/-- Claim C2, witness at a concrete store with the unparseable key `"abc"`. -/
theorem C2_witness :
    write_puzzles [("puzzles", Json.obj [("abc", Json.arr [])])] none =
      Except.error Err.invalidYearKey ∧
    runWrite [("puzzles", Json.obj [("abc", Json.arr [])])] none =
      (none, some Err.invalidYearKey) :=
  C2_invalid_key_no_write rfl ⟨("abc", Json.arr []), by simp, rfl⟩

/- ### Claim C6 -/

/-- Claim C6: `add` on a year already present fails with `DuplicateYear` and
performs no write — the file state is left exactly as it was. -/
theorem C6_duplicate_year_no_write {year : Int} {hints : List String}
    {st : Option TopD} {pz : List (String × Json)} {v : Json}
    (hpz : jgetD (read_full_json st) "puzzles" (Json.obj []) = Json.obj pz)
    (hdup : dlook pz (pyStrInt year) = some v) :
    add_puzzle year hints st = Except.error Err.duplicateYear ∧
    runAdd year hints st = (st, some Err.duplicateYear) := by
  have h1 : add_puzzle year hints st = Except.error Err.duplicateYear := by
    rw [add_puzzle_eq hpz, if_pos (by rw [hdup]; rfl)]
  refine ⟨h1, ?_⟩
  unfold runAdd
  rw [h1]

/-- Claim C6, witness: adding year `7` to a store that already has key `"7"`. -/
theorem C6_witness :
    add_puzzle 7 ["q"] (some [("puzzles", Json.obj [("7", Json.arr [Json.str "x"])])]) =
      Except.error Err.duplicateYear ∧
    runAdd 7 ["q"] (some [("puzzles", Json.obj [("7", Json.arr [Json.str "x"])])]) =
      (some [("puzzles", Json.obj [("7", Json.arr [Json.str "x"])])],
        some Err.duplicateYear) :=
  C6_duplicate_year_no_write rfl rfl

theorem metaGet_of_meta_obj {d : TopD} {mw : List (String × Json)} {k : String}
    (h : dlook d "meta" = some (Json.obj mw)) : metaGet d k = dlook mw k := by
  unfold metaGet
  rw [h]

/-- `keysParse` only inspects the keys. -/
theorem keysParse_eq_keys : ∀ l : List (String × Json),
    keysParse l = (l.map Prod.fst).all (fun s => (pyInt s).isSome) := by
  intro l
  induction l with
  | nil => rfl
  | cons p rest ih =>
    simp only [keysParse, List.all_cons, List.map_cons] at *
    rw [ih]

theorem getStrs_map_str (hs : List String) : getStrs (hs.map Json.str) = some hs := by
  induction hs with
  | nil => rfl
  | cons h t ih => simp [getStrs, ih]

/-- Inversion of a successful `write_puzzles`. -/
theorem write_puzzles_ok_inv {data : TopD} {st : Option TopD} {out : TopD}
    (h : write_puzzles data st = Except.ok out) :
    ∃ pz m, jgetD data "puzzles" (Json.obj []) = Json.obj pz ∧ keysParse pz = true ∧
      dlook (preDoc st (sortEntries pz)) "meta" = some (Json.obj m) ∧
      out = dictSet (preDoc st (sortEntries pz)) "meta"
        (Json.obj (mkMeta m (sortEntries pz))) := by
  unfold write_puzzles at h
  split at h
  next pz heq =>
    unfold write_puzzlesAux at h
    split at h
    next hall =>
      split at h
      next m hm =>
        injection h with h2
        exact ⟨pz, m, heq, hall, hm, h2.symm⟩
      next hm => exact Except.noConfusion h
    next hall => exact Except.noConfusion h
  next heq => exact Except.noConfusion h

theorem show_puzzle_obj {year : Int} {d : TopD} {pzd : List (String × Json)}
    (hp : jgetD d "puzzles" (Json.obj []) = Json.obj pzd) :
    show_puzzle year (some d) = showHints year pzd := by
  have h1 : read_puzzles (some d) = Except.ok (Json.obj pzd) := by
    show Except.ok (jgetD d "puzzles" (Json.obj [])) = Except.ok (Json.obj pzd)
    rw [hp]
  unfold show_puzzle
  rw [h1]

theorem showHints_arr {year : Int} {pz : List (String × Json)} {items : List Json}
    (hv : dlook pz (pyStrInt year) = some (Json.arr items)) :
    showHints year pz = renderHints year items := by
  unfold showHints
  rw [hv]

theorem renderHints_strs (year : Int) (hs : List String) :
    renderHints year (hs.map Json.str) =
      Except.ok (("Hints for year " ++ pyStrInt year ++ ":") ::
        (hs.enum.map (fun p => "  " ++ pyStrNat (p.1 + 1) ++ ". " ++ p.2))) := by
  unfold renderHints
  rw [getStrs_map_str]

/- ### Claim C3 -/

/-- Claim C3, counterexample: the distinct keys `"5"` and `"05"` both have
integer value `5`; the writer succeeds and writes them in the stable-sort
order `["5", "05"]`, whose integer key values are **not** strictly
ascending (the claim asserts strict ascent for every mapping whose keys all
parse). -/
theorem C3_counterexample :
    write_puzzles [("puzzles", Json.obj [("5", Json.arr []), ("05", Json.arr [])])] none =
      Except.ok
        [("puzzles", Json.obj [("5", Json.arr []), ("05", Json.arr [])]),
         ("meta", Json.obj [("total_puzzles", Json.num 2), ("date_range", Json.str "5-05")])] ∧
    ¬ List.Chain' (fun a b : String × Json => keyInt a.1 < keyInt b.1)
        [("5", Json.arr []), ("05", Json.arr [])] := by
  constructor
  · rfl
  · intro h
    have h1 : keyInt "5" < keyInt "05" := (List.chain'_cons.mp h).1
    have h2 : keyInt "5" = 5 := rfl
    have h3 : keyInt "05" = 5 := rfl
    rw [h2, h3] at h1
    exact absurd h1 (by decide)

/-- Claim C3 (amended): for every `puzzles` mapping whose keys all parse as
integers (and are distinct, as dict keys are), the write succeeds,
`meta.total_puzzles` equals the number of keys, and the written keys are in
ascending (non-decreasing) order by integer value; ties between distinct
key tokens with the same integer value keep their relative order, so the
order is not strict in general. -/
theorem C3_total_and_sorted {data : TopD} {st : Option TopD}
    {pz : List (String × Json)}
    (hpz : jgetD data "puzzles" (Json.obj []) = Json.obj pz)
    (hnd : (pz.map Prod.fst).Nodup)
    (hall : keysParse pz = true)
    (hmeta : metaOk (read_full_json st) = true) :
    ∃ out pzw, write_puzzles data st = Except.ok out ∧
      dlook out "puzzles" = some (Json.obj pzw) ∧
      pzw.length = pz.length ∧
      metaGet out "total_puzzles" = some (Json.num (pz.length : Int)) ∧
      List.Pairwise (fun a b : String × Json => keyInt a.1 ≤ keyInt b.1) pzw := by
  obtain ⟨m, hm, heq⟩ := @write_puzzlesAux_ok_of_metaOk pz st hall hmeta
  refine ⟨dictSet (preDoc st (sortEntries pz)) "meta"
      (Json.obj (mkMeta m (sortEntries pz))), sortEntries pz, ?_, ?_, ?_, ?_, ?_⟩
  · rw [write_puzzles_eq_aux hpz]
    exact heq
  · rw [dlook_dictSet_ne _ _ _ _ (by decide)]
    exact dlook_preDoc_puzzles st _
  · exact sortEntries_length pz
  · rw [metaGet_of_meta_obj (dlook_dictSet_self _ _ _), dlook_mkMeta_total,
      sortEntries_length]
  · exact sortEntries_sorted pz

/-- Claim C3, witness at the three-entry store of the spec's example. -/
theorem C3_witness :
    keysParse [("5", Json.arr []), ("-44", Json.arr []), ("10", Json.arr [])] = true ∧
    (∃ out pzw,
      write_puzzles
        [("puzzles",
          Json.obj [("5", Json.arr []), ("-44", Json.arr []), ("10", Json.arr [])])] none =
        Except.ok out ∧
      dlook out "puzzles" = some (Json.obj pzw) ∧
      pzw.length = 3 ∧
      metaGet out "total_puzzles" = some (Json.num 3) ∧
      List.Pairwise (fun a b : String × Json => keyInt a.1 ≤ keyInt b.1) pzw) :=
  ⟨by decide,
    @C3_total_and_sorted
      [("puzzles", Json.obj [("5", Json.arr []), ("-44", Json.arr []), ("10", Json.arr [])])]
      none
      [("5", Json.arr []), ("-44", Json.arr []), ("10", Json.arr [])]
      rfl (by decide) (by decide) rfl⟩

/- ### Claim C4 -/

/-- Claim C4: after a successful write, `meta.date_range` is the original
string token of a numerically minimal key, a hyphen, and the token of a
numerically maximal key; for an empty mapping it is `""`. -/
theorem C4_date_range {data : TopD} {st : Option TopD} {pz : List (String × Json)}
    (hpz : jgetD data "puzzles" (Json.obj []) = Json.obj pz)
    (hall : keysParse pz = true)
    (hmeta : metaOk (read_full_json st) = true) :
    ∃ out, write_puzzles data st = Except.ok out ∧
      (pz = [] → metaGet out "date_range" = some (Json.str "")) ∧
      (pz ≠ [] → ∃ kmin kmax, kmin ∈ pz.map Prod.fst ∧ kmax ∈ pz.map Prod.fst ∧
        (∀ k ∈ pz.map Prod.fst, keyInt kmin ≤ keyInt k ∧ keyInt k ≤ keyInt kmax) ∧
        metaGet out "date_range" = some (Json.str (kmin ++ "-" ++ kmax))) := by
  obtain ⟨m, hm, heq⟩ := @write_puzzlesAux_ok_of_metaOk pz st hall hmeta
  refine ⟨dictSet (preDoc st (sortEntries pz)) "meta"
      (Json.obj (mkMeta m (sortEntries pz))), ?_, ?_, ?_⟩
  · rw [write_puzzles_eq_aux hpz]
    exact heq
  · intro hempty
    subst hempty
    rw [metaGet_of_meta_obj (dlook_dictSet_self _ _ _), dlook_mkMeta_dr]
    rfl
  · intro hnonempty
    have hsne : sortEntries pz ≠ [] := by
      intro hcontra
      have := sortEntries_length pz
      rw [hcontra] at this
      exact hnonempty (List.eq_nil_of_length_eq_zero this.symm)
    refine ⟨((sortEntries pz).head hsne).1, ((sortEntries pz).getLast hsne).1, ?_, ?_, ?_, ?_⟩
    · exact List.mem_map_of_mem Prod.fst
        ((sortEntries_perm pz).subset (List.head_mem hsne))
    · exact List.mem_map_of_mem Prod.fst
        ((sortEntries_perm pz).subset (List.getLast_mem hsne))
    · intro k hk
      rcases List.mem_map.mp hk with ⟨p, hp, hpk⟩
      have hps : p ∈ sortEntries pz := ((sortEntries_perm pz).symm).subset hp
      subst hpk
      exact ⟨sorted_head_min (sortEntries_sorted pz) hsne p hps,
        sorted_getLast_max (sortEntries_sorted pz) hsne p hps⟩
    · rw [metaGet_of_meta_obj (dlook_dictSet_self _ _ _), dlook_mkMeta_dr]
      have hie : (sortEntries pz).isEmpty = false := by
        cases hse : sortEntries pz
        · exact absurd hse hsne
        · rfl
      rw [hie]
      rw [List.head?_eq_head hsne, List.getLast?_eq_getLast _ hsne]
      simp

/-- Claim C4, witness at the spec's example: keys `"5"`, `"-44"`, `"10"` give
`date_range = "-44-10"`. -/
theorem C4_witness :
    (∃ out,
      write_puzzles
        [("puzzles",
          Json.obj [("5", Json.arr []), ("-44", Json.arr []), ("10", Json.arr [])])] none =
        Except.ok out ∧
      (([("5", Json.arr []), ("-44", Json.arr []), ("10", Json.arr [])] :
          List (String × Json)) = [] →
        metaGet out "date_range" = some (Json.str "")) ∧
      (([("5", Json.arr []), ("-44", Json.arr []), ("10", Json.arr [])] :
          List (String × Json)) ≠ [] →
        ∃ kmin kmax,
          kmin ∈ ([("5", Json.arr []), ("-44", Json.arr []), ("10", Json.arr [])] :
            List (String × Json)).map Prod.fst ∧
          kmax ∈ ([("5", Json.arr []), ("-44", Json.arr []), ("10", Json.arr [])] :
            List (String × Json)).map Prod.fst ∧
          (∀ k ∈ ([("5", Json.arr []), ("-44", Json.arr []), ("10", Json.arr [])] :
            List (String × Json)).map Prod.fst,
            keyInt kmin ≤ keyInt k ∧ keyInt k ≤ keyInt kmax) ∧
          metaGet out "date_range" = some (Json.str (kmin ++ "-" ++ kmax)))) ∧
    (∃ out,
      write_puzzles
        [("puzzles",
          Json.obj [("5", Json.arr []), ("-44", Json.arr []), ("10", Json.arr [])])] none =
        Except.ok out ∧
      metaGet out "date_range" = some (Json.str "-44-10")) :=
  ⟨@C4_date_range
      [("puzzles", Json.obj [("5", Json.arr []), ("-44", Json.arr []), ("10", Json.arr [])])]
      none
      [("5", Json.arr []), ("-44", Json.arr []), ("10", Json.arr [])]
      rfl (by decide) rfl,
    ⟨[("puzzles", Json.obj [("-44", Json.arr []), ("5", Json.arr []), ("10", Json.arr [])]),
      ("meta", Json.obj [("total_puzzles", Json.num 3), ("date_range", Json.str "-44-10")])],
      rfl, rfl⟩⟩

/- ### Claim C5 -/

/-- Claim C5: a successful write preserves every top-level field other than
`puzzles` and `meta` exactly as it stands in the on-disk document the writer
re-reads (it never serializes the caller's snapshot alone). -/
theorem C5_top_level_frame {data : TopD} {st : Option TopD} {out : TopD}
    (hout : write_puzzles data st = Except.ok out) :
    ∀ k, k ≠ "puzzles" → k ≠ "meta" →
      dlook out k = dlook (read_full_json st) k := by
  obtain ⟨pz, m, hpz, hall, hm, hrfl⟩ := write_puzzles_ok_inv hout
  intro k h1 h2
  rw [hrfl, dlook_dictSet_ne _ _ _ _ h2]
  exact dlook_preDoc_other h1 h2

/-- Claim C5, witness: the unknown top-level field `"extra"` of the on-disk
document survives a write that replaces `puzzles`. -/
theorem C5_witness :
    write_puzzles
      [("puzzles", Json.obj [("7", Json.arr [Json.str "x"])]),
       ("extra", Json.str "keepme")]
      (some [("puzzles", Json.obj []), ("extra", Json.str "keepme")]) =
      Except.ok
        [("puzzles", Json.obj [("7", Json.arr [Json.str "x"])]),
         ("extra", Json.str "keepme"),
         ("meta", Json.obj [("total_puzzles", Json.num 1), ("date_range", Json.str "7-7")])] ∧
    dlook
      [("puzzles", Json.obj [("7", Json.arr [Json.str "x"])]),
       ("extra", Json.str "keepme"),
       ("meta", Json.obj [("total_puzzles", Json.num 1), ("date_range", Json.str "7-7")])]
      "extra" =
      dlook (read_full_json (some [("puzzles", Json.obj []), ("extra", Json.str "keepme")]))
        "extra" :=
  ⟨rfl,
    @C5_top_level_frame
      [("puzzles", Json.obj [("7", Json.arr [Json.str "x"])]),
       ("extra", Json.str "keepme")]
      (some [("puzzles", Json.obj []), ("extra", Json.str "keepme")])
      [("puzzles", Json.obj [("7", Json.arr [Json.str "x"])]),
       ("extra", Json.str "keepme"),
       ("meta", Json.obj [("total_puzzles", Json.num 1), ("date_range", Json.str "7-7")])]
      rfl "extra" (by decide) (by decide)⟩

/- ### Claim C10 -/

/-- Claim C10: a successful write preserves every `meta` field other than
`total_puzzles` and `date_range`; when the on-disk document has no `meta`
object, one is created containing only those two fields. -/
theorem C10_meta_frame {data : TopD} {st : Option TopD} {out : TopD}
    (hout : write_puzzles data st = Except.ok out) :
    (∀ m2, dlook (read_full_json st) "meta" = some (Json.obj m2) →
      ∃ mw, dlook out "meta" = some (Json.obj mw) ∧
        ∀ k, k ≠ "total_puzzles" → k ≠ "date_range" → dlook mw k = dlook m2 k) ∧
    (dlook (read_full_json st) "meta" = none →
      ∃ mw, dlook out "meta" = some (Json.obj mw) ∧
        ∀ k, k ≠ "total_puzzles" → k ≠ "date_range" → dlook mw k = none) := by
  obtain ⟨pz, m, hpz, hall, hm, hrfl⟩ := write_puzzles_ok_inv hout
  constructor
  · intro m2 hmeta2
    have hpre : dlook (preDoc st (sortEntries pz)) "meta" = some (Json.obj m2) :=
      dlook_preDoc_meta_some hmeta2
    rw [hpre] at hm
    injection hm with hm2
    injection hm2 with hm3
    refine ⟨mkMeta m (sortEntries pz), ?_, ?_⟩
    · rw [hrfl]
      exact dlook_dictSet_self _ _ _
    · intro k h1 h2
      rw [dlook_mkMeta_other h1 h2, hm3]
  · intro hmeta2
    have hpre : dlook (preDoc st (sortEntries pz)) "meta" = some (Json.obj []) :=
      dlook_preDoc_meta_none hmeta2
    rw [hpre] at hm
    injection hm with hm2
    injection hm2 with hm3
    refine ⟨mkMeta m (sortEntries pz), ?_, ?_⟩
    · rw [hrfl]
      exact dlook_dictSet_self _ _ _
    · intro k h1 h2
      rw [dlook_mkMeta_other h1 h2, ← hm3]
      rfl

/-- Claim C10, witness: a hand-added `meta.version` survives a write; the
stale `total_puzzles` is overwritten. -/
theorem C10_witness :
    write_puzzles
      [("puzzles", Json.obj [("7", Json.arr [Json.str "x"])]),
       ("meta", Json.obj [("version", Json.num 3), ("total_puzzles", Json.num 99)])]
      (some
        [("puzzles", Json.obj [("7", Json.arr [Json.str "x"])]),
         ("meta", Json.obj [("version", Json.num 3), ("total_puzzles", Json.num 99)])]) =
      Except.ok
        [("puzzles", Json.obj [("7", Json.arr [Json.str "x"])]),
         ("meta", Json.obj [("version", Json.num 3), ("total_puzzles", Json.num 1),
           ("date_range", Json.str "7-7")])] ∧
    ((∀ m2,
      dlook (read_full_json (some
        [("puzzles", Json.obj [("7", Json.arr [Json.str "x"])]),
         ("meta", Json.obj [("version", Json.num 3), ("total_puzzles", Json.num 99)])]))
        "meta" = some (Json.obj m2) →
      ∃ mw,
        dlook
          [("puzzles", Json.obj [("7", Json.arr [Json.str "x"])]),
           ("meta", Json.obj [("version", Json.num 3), ("total_puzzles", Json.num 1),
             ("date_range", Json.str "7-7")])]
          "meta" = some (Json.obj mw) ∧
        ∀ k, k ≠ "total_puzzles" → k ≠ "date_range" → dlook mw k = dlook m2 k) ∧
    (dlook (read_full_json (some
        [("puzzles", Json.obj [("7", Json.arr [Json.str "x"])]),
         ("meta", Json.obj [("version", Json.num 3), ("total_puzzles", Json.num 99)])]))
        "meta" = none →
      ∃ mw,
        dlook
          [("puzzles", Json.obj [("7", Json.arr [Json.str "x"])]),
           ("meta", Json.obj [("version", Json.num 3), ("total_puzzles", Json.num 1),
             ("date_range", Json.str "7-7")])]
          "meta" = some (Json.obj mw) ∧
        ∀ k, k ≠ "total_puzzles" → k ≠ "date_range" → dlook mw k = none)) :=
  ⟨rfl,
    @C10_meta_frame
      [("puzzles", Json.obj [("7", Json.arr [Json.str "x"])]),
       ("meta", Json.obj [("version", Json.num 3), ("total_puzzles", Json.num 99)])]
      (some
        [("puzzles", Json.obj [("7", Json.arr [Json.str "x"])]),
         ("meta", Json.obj [("version", Json.num 3), ("total_puzzles", Json.num 99)])])
      [("puzzles", Json.obj [("7", Json.arr [Json.str "x"])]),
       ("meta", Json.obj [("version", Json.num 3), ("total_puzzles", Json.num 1),
         ("date_range", Json.str "7-7")])]
      rfl⟩

/- ### Claim C7 -/

/-- Claim C7: on a well-formed store, `update` fails with `YearNotFound` (no
write, state unchanged) **iff** the target year is absent; when the year is
present, the year's hint sequence is replaced wholesale by the new hints. -/
theorem C7_update_iff {year : Int} {hints : List String} {st : Option TopD}
    {pz : List (String × Json)}
    (hpz : jgetD (read_full_json st) "puzzles" (Json.obj []) = Json.obj pz)
    (hnd : (pz.map Prod.fst).Nodup)
    (hall : keysParse pz = true)
    (hmeta : metaOk (read_full_json st) = true) :
    (update_puzzle year hints st = Except.error Err.yearNotFound ↔
      dlook pz (pyStrInt year) = none) ∧
    (dlook pz (pyStrInt year) = none →
      runUpdate year hints st = (st, some Err.yearNotFound)) ∧
    (∀ v, dlook pz (pyStrInt year) = some v →
      ∃ out pzw, update_puzzle year hints st = Except.ok out ∧
        dlook out "puzzles" = some (Json.obj pzw) ∧
        dlook pzw (pyStrInt year) = some (Json.arr (hints.map Json.str))) := by
  have habsent : dlook pz (pyStrInt year) = none →
      update_puzzle year hints st = Except.error Err.yearNotFound := by
    intro habs
    rw [update_puzzle_eq hpz, if_neg (by rw [habs]; simp)]
  refine ⟨⟨?_, habsent⟩, ?_, ?_⟩
  · intro hupd
    rcases hv : dlook pz (pyStrInt year) with _ | v
    · rfl
    · rw [update_puzzle_eq hpz, if_pos (by rw [hv]; rfl)] at hupd
      rcases write_puzzles_error_sub hupd with h | h <;> exact absurd h (by decide)
  · intro habs
    unfold runUpdate
    rw [habsent habs]
  · intro v hv
    have hkeys : (dictSet pz (pyStrInt year) (Json.arr (hints.map Json.str))).map Prod.fst =
        pz.map Prod.fst :=
      dictSet_keys_of_mem _ _ _ (by rw [hv]; simp)
    have hall2 : keysParse (dictSet pz (pyStrInt year) (Json.arr (hints.map Json.str))) =
        true := by
      rw [keysParse_eq_keys, hkeys, ← keysParse_eq_keys]
      exact hall
    have hnd2 : ((dictSet pz (pyStrInt year)
        (Json.arr (hints.map Json.str))).map Prod.fst).Nodup := by
      rw [hkeys]
      exact hnd
    obtain ⟨m, hm, heq⟩ :=
      @write_puzzlesAux_ok_of_metaOk
        (dictSet pz (pyStrInt year) (Json.arr (hints.map Json.str))) st hall2 hmeta
    refine ⟨dictSet
        (preDoc st (sortEntries (dictSet pz (pyStrInt year) (Json.arr (hints.map Json.str)))))
        "meta"
        (Json.obj (mkMeta m
          (sortEntries (dictSet pz (pyStrInt year) (Json.arr (hints.map Json.str)))))),
      sortEntries (dictSet pz (pyStrInt year) (Json.arr (hints.map Json.str))), ?_, ?_, ?_⟩
    · rw [update_puzzle_eq hpz, if_pos (by rw [hv]; rfl)]
      rw [write_puzzles_eq_aux (jgetD_dictSet_self _ _ _ _)]
      exact heq
    · rw [dlook_dictSet_ne _ _ _ _ (by decide)]
      exact dlook_preDoc_puzzles st _
    · rw [dlook_sortEntries hnd2]
      exact dlook_dictSet_self _ _ _

/-- Claim C7, witness at the spec's example: year `7` with hints
`["x","y","z"]`, updated with `["q"]`. -/
theorem C7_witness :
    (update_puzzle 7 ["q"]
        (some [("puzzles",
          Json.obj [("7", Json.arr [Json.str "x", Json.str "y", Json.str "z"])])]) =
        Except.error Err.yearNotFound ↔
      dlook [("7", Json.arr [Json.str "x", Json.str "y", Json.str "z"])] (pyStrInt 7) =
        none) ∧
    (dlook [("7", Json.arr [Json.str "x", Json.str "y", Json.str "z"])] (pyStrInt 7) =
        none →
      runUpdate 7 ["q"]
        (some [("puzzles",
          Json.obj [("7", Json.arr [Json.str "x", Json.str "y", Json.str "z"])])]) =
        (some [("puzzles",
          Json.obj [("7", Json.arr [Json.str "x", Json.str "y", Json.str "z"])])],
          some Err.yearNotFound)) ∧
    (∀ v,
      dlook [("7", Json.arr [Json.str "x", Json.str "y", Json.str "z"])] (pyStrInt 7) =
        some v →
      ∃ out pzw,
        update_puzzle 7 ["q"]
          (some [("puzzles",
            Json.obj [("7", Json.arr [Json.str "x", Json.str "y", Json.str "z"])])]) =
          Except.ok out ∧
        dlook out "puzzles" = some (Json.obj pzw) ∧
        dlook pzw (pyStrInt 7) = some (Json.arr [Json.str "q"])) :=
  @C7_update_iff 7 ["q"]
    (some [("puzzles", Json.obj [("7", Json.arr [Json.str "x", Json.str "y", Json.str "z"])])])
    [("7", Json.arr [Json.str "x", Json.str "y", Json.str "z"])]
    rfl (by decide) (by decide) rfl

/- ### Claim C8 -/

/-- Claim C8: writing the document obtained by loading a writer output
succeeds and reproduces the same `puzzles` content — the write-path
normalization is idempotent. -/
theorem C8_idempotent {data : TopD} {st : Option TopD} {out : TopD}
    (hout : write_puzzles data st = Except.ok out) :
    ∃ out2, write_puzzles out (some out) = Except.ok out2 ∧
      dlook out2 "puzzles" = dlook out "puzzles" := by
  obtain ⟨pz, m, hpz, hall, hm, hrfl⟩ := write_puzzles_ok_inv hout
  have hpuz : dlook out "puzzles" = some (Json.obj (sortEntries pz)) := by
    rw [hrfl, dlook_dictSet_ne _ _ _ _ (by decide)]
    exact dlook_preDoc_puzzles st _
  have hpz2 : jgetD out "puzzles" (Json.obj []) = Json.obj (sortEntries pz) := by
    unfold jgetD
    rw [hpuz]
    rfl
  have hall2 : keysParse (sortEntries pz) = true := keysParse_sortEntries hall
  have hmeta2 : metaOk (read_full_json (some out)) = true := by
    show metaOk out = true
    unfold metaOk
    rw [hrfl, dlook_dictSet_self]
  obtain ⟨m2, hm2, heq2⟩ :=
    @write_puzzlesAux_ok_of_metaOk (sortEntries pz) (some out) hall2 hmeta2
  rw [sortEntries_idem] at hm2 heq2
  refine ⟨dictSet (preDoc (some out) (sortEntries pz)) "meta"
      (Json.obj (mkMeta m2 (sortEntries pz))), ?_, ?_⟩
  · rw [write_puzzles_eq_aux hpz2]
    exact heq2
  · rw [dlook_dictSet_ne _ _ _ _ (by decide), dlook_preDoc_puzzles, hpuz]

/-- Claim C8, witness at a one-entry store created from scratch. -/
theorem C8_witness :
    write_puzzles [("puzzles", Json.obj [("7", Json.arr [Json.str "x"])])] none =
      Except.ok
        [("puzzles", Json.obj [("7", Json.arr [Json.str "x"])]),
         ("meta", Json.obj [("total_puzzles", Json.num 1), ("date_range", Json.str "7-7")])] ∧
    (∃ out2,
      write_puzzles
        [("puzzles", Json.obj [("7", Json.arr [Json.str "x"])]),
         ("meta", Json.obj [("total_puzzles", Json.num 1), ("date_range", Json.str "7-7")])]
        (some
          [("puzzles", Json.obj [("7", Json.arr [Json.str "x"])]),
           ("meta", Json.obj [("total_puzzles", Json.num 1),
             ("date_range", Json.str "7-7")])]) =
        Except.ok out2 ∧
      dlook out2 "puzzles" =
        dlook
          [("puzzles", Json.obj [("7", Json.arr [Json.str "x"])]),
           ("meta", Json.obj [("total_puzzles", Json.num 1), ("date_range", Json.str "7-7")])]
          "puzzles") :=
  ⟨rfl,
    @C8_idempotent [("puzzles", Json.obj [("7", Json.arr [Json.str "x"])])] none
      [("puzzles", Json.obj [("7", Json.arr [Json.str "x"])]),
       ("meta", Json.obj [("total_puzzles", Json.num 1), ("date_range", Json.str "7-7")])]
      rfl⟩

/- ### Claim C9 -/

/-- Claim C9: on a well-formed store, adding a new year with a non-empty hint
sequence and then showing that year succeeds and prints exactly those hints,
1-indexed, in the order they were given. -/
theorem C9_add_show {year : Int} {hints : List String} {st : Option TopD}
    {pz : List (String × Json)}
    (hpz : jgetD (read_full_json st) "puzzles" (Json.obj []) = Json.obj pz)
    (hnd : (pz.map Prod.fst).Nodup)
    (hall : keysParse pz = true)
    (hmeta : metaOk (read_full_json st) = true)
    (habs : dlook pz (pyStrInt year) = none)
    (hne : hints ≠ []) :
    ∃ out, add_puzzle year hints st = Except.ok out ∧
      show_puzzle year (some out) =
        Except.ok (("Hints for year " ++ pyStrInt year ++ ":") ::
          (hints.enum.map (fun p => "  " ++ pyStrNat (p.1 + 1) ++ ". " ++ p.2))) := by
  obtain ⟨out, hadd, hpuz⟩ := add_ok hpz habs hall hmeta
  have hkey : (pyStrInt year) ∉ pz.map Prod.fst := (dlook_eq_none_iff pz _).mp habs
  have hnd2 : ((dictSet pz (pyStrInt year)
      (Json.arr (hints.map Json.str))).map Prod.fst).Nodup := by
    rw [dictSet_of_absent _ _ _ habs, List.map_append, List.nodup_append]
    refine ⟨hnd, by simp, ?_⟩
    intro a ha hb
    simp only [List.map_cons, List.map_nil, List.mem_singleton] at hb
    subst hb
    exact hkey ha
  have hpz2 : jgetD out "puzzles" (Json.obj []) =
      Json.obj (sortEntries (dictSet pz (pyStrInt year) (Json.arr (hints.map Json.str)))) := by
    unfold jgetD
    rw [hpuz]
    rfl
  refine ⟨out, hadd, ?_⟩
  rw [show_puzzle_obj hpz2,
    showHints_arr (by rw [dlook_sortEntries hnd2]; exact dlook_dictSet_self _ _ _),
    renderHints_strs]

/-- Claim C9, witness at the spec's example: `add 2001 ["a","b"]` then
`show 2001` prints `1. a`, `2. b`. -/
theorem C9_witness :
    ∃ out, add_puzzle 2001 ["a", "b"] none = Except.ok out ∧
      show_puzzle 2001 (some out) =
        Except.ok ["Hints for year 2001:", "  1. a", "  2. b"] := by
  obtain ⟨out, h1, h2⟩ :=
    @C9_add_show 2001 ["a", "b"] none [] rfl (by decide) rfl rfl rfl (by decide)
  exact ⟨out, h1, h2⟩

/-- Claim C1 (amended), witness at year `2001`, hints `["a"]`. -/
theorem C1_witness :
    list_puzzles none = Except.error Err.notFound ∧
    show_puzzle 2001 none = Except.error Err.notFound ∧
    count_puzzles none = Except.error Err.notFound ∧
    (∃ out, add_puzzle 2001 ["a"] none = Except.ok out) ∧
    update_puzzle 2001 ["a"] none = Except.error Err.yearNotFound :=
  C1_missing_file 2001 ["a"]
